import Mathlib

/-!
Shallow embedding of the gRPC Exam Service (src/server.rs).

The server holds a `HashMap<String, GetExamResultResponse>` seeded with two
records, keyed by the composite string `format!("{}_{}", student_id, exam_id)`.
The unary handler `get_exam_result` looks the key up and returns the record or
a `NotFound` status carrying the key.  The streaming handler
`get_exam_result_stream` never reads the map: it spawns a task that sends three
synthetic progress records over a bounded mpsc channel, sleeping one second
after each successful send, and breaks (logging, not erring) on the first
failed send, which in tokio means the receiver was dropped.

The consumer side of the channel is modelled by a single parameter
`accepted : Nat`: the number of `send` calls that succeed before the receiver
is dropped (in tokio's mpsc, `send` fails exactly when the receiving half has
been dropped, and once dropped it never comes back, so the successful sends
are exactly a prefix).  A consumer that never disconnects corresponds to any
`accepted ≥ 3`.  The spawned task is modelled as the finite list of events it
performs: sends (carrying the `Result` value put on the channel), sleeps, and
the disconnect log line.
-/

deriving instance DecidableEq for Except

/-- Request message of both RPCs (proto `GetExamResultRequest`). -/
structure GetExamResultRequest where
  student_id : String
  exam_id : String
  deriving DecidableEq

/-- Response message (proto `GetExamResultResponse`); `int32` fields are
embedded as `Int` (all values in the program are tiny, far from overflow). -/
structure GetExamResultResponse where
  student_name : String
  subject : String
  marks_obtained : Int
  total_marks : Int
  grade : String
  deriving DecidableEq

/-- The only gRPC status code the server ever produces. -/
inductive StatusCode where
  | notFound
  deriving DecidableEq

/-- A tonic `Status`: a code plus a message. -/
structure Status where
  code : StatusCode
  message : String
  deriving DecidableEq

/-- `Status::not_found(msg)` from tonic. -/
def Status.not_found (msg : String) : Status :=
  { code := StatusCode.notFound, message := msg }

/-- The exam-data map.  The Rust `HashMap<String, GetExamResultResponse>` is
embedded as an association list; the two seeded keys are distinct, so
association-list lookup agrees with `HashMap::get`. -/
abbrev ExamData := List (String × GetExamResultResponse)

/-- `HashMap::get(&key)`: first (and, keys being distinct, only) binding. -/
def storeLookup : ExamData → String → Option GetExamResultResponse
  | [], _ => none
  | (k, v) :: rest, key => if k = key then some v else storeLookup rest key

/-- The service struct: it owns the seeded map (`Arc<RwLock<HashMap<..>>>`;
the lock only mediates concurrent access and is identity on contents). -/
structure ExamServiceImpl where
  exam_data : ExamData
  deriving DecidableEq

/-- `ExamServiceImpl::new()`: the two seeded records, inserted in source
order. -/
def ExamServiceImpl.new : ExamServiceImpl :=
  { exam_data :=
      [("123_math101",
        { student_name := "John Doe", subject := "Math 101",
          marks_obtained := 95, total_marks := 100, grade := "A+" }),
       ("456_phy101",
        { student_name := "Jane Smith", subject := "Physics 101",
          marks_obtained := 88, total_marks := 100, grade := "A" })] }

/-- `format!("{}_{}", student_id, exam_id)`: the composite lookup key. -/
def combineKey (student_id exam_id : String) : String :=
  student_id ++ "_" ++ exam_id

/-- The unary handler `get_exam_result`.  It is read-only on the service
state; the state is threaded through explicitly so that statements about
(non-)mutation across call sequences can be made. -/
def get_exam_result (svc : ExamServiceImpl) (req : GetExamResultRequest) :
    Except Status GetExamResultResponse × ExamServiceImpl :=
  let key := combineKey req.student_id req.exam_id
  match storeLookup svc.exam_data key with
  | some result => (Except.ok result, svc)
  | none =>
      (Except.error (Status.not_found ("No result found for key: " ++ key)), svc)

/-- First progress message: `format!("Processing result for {} (1/3)", key)`. -/
def progressLabel1 (key : String) : String :=
  "Processing result for " ++ key ++ " (1/3)"

/-- Second progress message: `format!("Still working on {} (2/3)", key)`. -/
def progressLabel2 (key : String) : String :=
  "Still working on " ++ key ++ " (2/3)"

/-- Third progress message: `format!("Completed result for {} (3/3)", key)`. -/
def progressLabel3 (key : String) : String :=
  "Completed result for " ++ key ++ " (3/3)"

/-- The three `simulated_results` format strings built by the spawned task. -/
def simulated_results (key : String) : List String :=
  [progressLabel1 key, progressLabel2 key, progressLabel3 key]

/-- The record the task sends for a given progress message `msg`. -/
def streamResponse (msg : String) : GetExamResultResponse :=
  { student_name := "Streamed", subject := "Simulation",
    marks_obtained := 90, total_marks := 100, grade := msg }

/-- One observable action of the spawned producer task. -/
inductive StreamEvent where
  | sent (item : Except Status GetExamResultResponse)
  | slept (seconds : Nat)
  | disconnectLogged
  deriving DecidableEq

/-- The `for msg in simulated_results` loop of the spawned task.
`accepted` is the number of channel sends that succeed before the receiver is
dropped; `sentSoFar` counts the sends already performed.  On a successful send
the task sleeps one second and continues; on a failed send it prints the
disconnect line and breaks. -/
def producerLoop (accepted : Nat) : List String → Nat → List StreamEvent
  | [], _ => []
  | msg :: rest, sentSoFar =>
    if sentSoFar < accepted then
      StreamEvent.sent (Except.ok (streamResponse msg)) ::
      StreamEvent.slept 1 ::
      producerLoop accepted rest (sentSoFar + 1)
    else
      [StreamEvent.disconnectLogged]

/-- The whole spawned task for composite key `key`. -/
def producerEvents (key : String) (accepted : Nat) : List StreamEvent :=
  producerLoop accepted (simulated_results key) 0

/-- The streaming handler `get_exam_result_stream`: it builds the key, spawns
the producer task and immediately returns `Ok` carrying the receiving end of
the channel (represented here by the task's event list, from which the items
put on the channel can be read off).  It never touches `svc.exam_data`. -/
def get_exam_result_stream (svc : ExamServiceImpl) (req : GetExamResultRequest)
    (accepted : Nat) : Except Status (List StreamEvent) × ExamServiceImpl :=
  (Except.ok (producerEvents (combineKey req.student_id req.exam_id) accepted),
   svc)

/-- The items actually put on the channel, in producer order: what the
`ReceiverStream` yields to the consumer. -/
def sentItems (evs : List StreamEvent) :
    List (Except Status GetExamResultResponse) :=
  evs.filterMap fun e =>
    match e with
    | StreamEvent.sent x => some x
    | _ => none

/-- The successfully delivered records (payloads of `Ok` items). -/
def sentResponses (evs : List StreamEvent) : List GetExamResultResponse :=
  (sentItems evs).filterMap fun x =>
    match x with
    | Except.ok r => some r
    | _ => none

/-- Whether a channel item is an `Ok` record (as opposed to an error status). -/
def isOkItem : Except Status GetExamResultResponse → Bool
  | Except.ok _ => true
  | Except.error _ => false

/-- One incoming RPC, tagged with its channel behaviour when streaming. -/
inductive Call where
  | unary (req : GetExamResultRequest)
  | streaming (req : GetExamResultRequest) (accepted : Nat)

/-- What a single call returned. -/
inductive Outcome where
  | unaryOut (res : Except Status GetExamResultResponse)
  | streamOut (res : Except Status (List StreamEvent))

/-- Dispatch one call against the service state. -/
def runCall (svc : ExamServiceImpl) : Call → Outcome × ExamServiceImpl
  | Call.unary req =>
      let p := get_exam_result svc req
      (Outcome.unaryOut p.1, p.2)
  | Call.streaming req a =>
      let p := get_exam_result_stream svc req a
      (Outcome.streamOut p.1, p.2)

/-- Run a sequence of calls, threading the service state. -/
def runCalls (svc : ExamServiceImpl) : List Call → List Outcome × ExamServiceImpl
  | [] => ([], svc)
  | c :: cs =>
      let p := runCall svc c
      let q := runCalls p.2 cs
      (p.1 :: q.1, q.2)

/-- Predicate: every `sent` event is immediately followed by a one-second
`slept` event (the producer sleeps for the pacing interval after each
successful send, before producing anything further). -/
def sleepAfterEachSend : List StreamEvent → Bool
  | [] => true
  | StreamEvent.sent _ :: StreamEvent.slept 1 :: rest => sleepAfterEachSend rest
  | StreamEvent.sent _ :: _ => false
  | _ :: rest => sleepAfterEachSend rest

/-- Predicate: every sleep in the trace lasts exactly one second (the fixed
pacing interval `Duration::from_secs(1)`). -/
def allSleepsOneSecond (evs : List StreamEvent) : Bool :=
  evs.all fun e =>
    match e with
    | StreamEvent.slept n => n == 1
    | _ => true

theorem sentItems_nil : sentItems [] = [] := rfl

theorem sentItems_cons_sent (x : Except Status GetExamResultResponse)
    (evs : List StreamEvent) :
    sentItems (StreamEvent.sent x :: evs) = x :: sentItems evs := rfl

theorem sentItems_cons_slept (n : Nat) (evs : List StreamEvent) :
    sentItems (StreamEvent.slept n :: evs) = sentItems evs := rfl

theorem sentItems_cons_disconnect (evs : List StreamEvent) :
    sentItems (StreamEvent.disconnectLogged :: evs) = sentItems evs := rfl

/-- The producer's whole event trace when the consumer accepts every send. -/
theorem producerEvents_of_three_le (key : String) (a : Nat) (h : 3 ≤ a) :
    producerEvents key a =
      [StreamEvent.sent (Except.ok (streamResponse (progressLabel1 key))),
       StreamEvent.slept 1,
       StreamEvent.sent (Except.ok (streamResponse (progressLabel2 key))),
       StreamEvent.slept 1,
       StreamEvent.sent (Except.ok (streamResponse (progressLabel3 key))),
       StreamEvent.slept 1] := by
  have h0 : 0 < a := by omega
  have h1 : 1 < a := by omega
  have h2 : 2 < a := by omega
  simp [producerEvents, simulated_results, producerLoop, h0, h1, h2]

/-- The number of items put on the channel by the loop is the number of
remaining accepted sends, capped by the number of remaining messages. -/
theorem sentItems_producerLoop_length (a : Nat) :
    ∀ (msgs : List String) (c : Nat),
      (sentItems (producerLoop a msgs c)).length = min (a - c) msgs.length := by
  intro msgs
  induction msgs with
  | nil =>
    intro c
    simp [producerLoop, sentItems_nil]
  | cons m rest ih =>
    intro c
    by_cases hc : c < a
    · simp only [producerLoop, if_pos hc, sentItems_cons_sent, sentItems_cons_slept,
        List.length_cons, ih (c + 1)]
      omega
    · simp only [producerLoop, if_neg hc, sentItems_cons_disconnect, sentItems_nil,
        List.length_nil, List.length_cons]
      omega

/-- Every item the loop puts on the channel is `Ok` of the synthetic record
for one of the remaining messages. -/
theorem mem_sentItems_producerLoop (a : Nat) :
    ∀ (msgs : List String) (c : Nat) (x : Except Status GetExamResultResponse),
      x ∈ sentItems (producerLoop a msgs c) →
        ∃ m ∈ msgs, x = Except.ok (streamResponse m) := by
  intro msgs
  induction msgs with
  | nil =>
    intro c x hx
    simp [producerLoop, sentItems_nil] at hx
  | cons m rest ih =>
    intro c x hx
    by_cases hc : c < a
    · simp only [producerLoop, if_pos hc, sentItems_cons_sent, sentItems_cons_slept,
        List.mem_cons] at hx
      rcases hx with rfl | hx
      · exact ⟨m, List.mem_cons_self m rest, rfl⟩
      · obtain ⟨m', hm', rfl⟩ := ih (c + 1) x hx
        exact ⟨m', List.mem_cons_of_mem m hm', rfl⟩
    · simp only [producerLoop, if_neg hc, sentItems_cons_disconnect, sentItems_nil,
        List.not_mem_nil] at hx

/-- Every item ever put on the channel by a streaming call is an `Ok` record,
never an error status. -/
theorem sentItems_all_ok (key : String) (a : Nat) :
    (sentItems (producerEvents key a)).all isOkItem = true := by
  rw [List.all_eq_true]
  intro x hx
  obtain ⟨m, _, rfl⟩ := mem_sentItems_producerLoop a (simulated_results key) 0 x hx
  rfl

/-- If the consumer drops out before all messages are sent (`a < c + msgs.length`
accepted sends remain), the loop trace is some prefix followed by exactly one
disconnect log line, and the prefix carries exactly the accepted sends. -/
theorem producerLoop_disconnect (a : Nat) :
    ∀ (msgs : List String) (c : Nat), c ≤ a → a < c + msgs.length →
      ∃ pre, producerLoop a msgs c = pre ++ [StreamEvent.disconnectLogged] ∧
        (sentItems pre).length = a - c := by
  intro msgs
  induction msgs with
  | nil =>
    intro c h1 h2
    simp only [List.length_nil, Nat.add_zero] at h2
    exact absurd h2 (Nat.not_lt.mpr h1)
  | cons m rest ih =>
    intro c h1 h2
    by_cases hc : c < a
    · have h2' : a < (c + 1) + rest.length := by
        simp only [List.length_cons] at h2
        omega
      obtain ⟨pre, hpre, hlen⟩ := ih (c + 1) (by omega) h2'
      refine ⟨StreamEvent.sent (Except.ok (streamResponse m)) ::
              StreamEvent.slept 1 :: pre, ?_, ?_⟩
      · simp only [producerLoop, if_pos hc, hpre, List.cons_append]
      · simp only [sentItems_cons_sent, sentItems_cons_slept, List.length_cons, hlen]
        omega
    · refine ⟨[], ?_, ?_⟩
      · simp [producerLoop, hc]
      · simp only [sentItems_nil, List.length_nil]
        omega

/-- The pacing discipline holds for every loop trace. -/
theorem sleepAfterEachSend_producerLoop (a : Nat) :
    ∀ (msgs : List String) (c : Nat),
      sleepAfterEachSend (producerLoop a msgs c) = true := by
  intro msgs
  induction msgs with
  | nil => intro c; rfl
  | cons m rest ih =>
    intro c
    by_cases hc : c < a
    · simp only [producerLoop, if_pos hc]
      exact ih (c + 1)
    · simp only [producerLoop, if_neg hc]
      rfl

/-- Every sleep in every loop trace lasts exactly one second. -/
theorem allSleepsOneSecond_producerLoop (a : Nat) :
    ∀ (msgs : List String) (c : Nat),
      allSleepsOneSecond (producerLoop a msgs c) = true := by
  intro msgs
  induction msgs with
  | nil => intro c; rfl
  | cons m rest ih =>
    intro c
    by_cases hc : c < a
    · simp only [producerLoop, if_pos hc, allSleepsOneSecond, List.all_cons]
      simpa [allSleepsOneSecond] using ih (c + 1)
    · simp only [producerLoop, if_neg hc]
      rfl

theorem space_paren_one : (" (1/3)" : String) = " " ++ "(1/3)" := by decide

theorem space_paren_two : (" (2/3)" : String) = " " ++ "(2/3)" := by decide

theorem space_paren_three : (" (3/3)" : String) = " " ++ "(3/3)" := by decide

/-- The first progress message ends in the ordinal marker `(1/3)`. -/
theorem progressLabel1_split (key : String) :
    ∃ p, progressLabel1 key = p ++ "(1/3)" := by
  refine ⟨("Processing result for " ++ key) ++ " ", ?_⟩
  show ("Processing result for " ++ key) ++ " (1/3)" = _
  rw [space_paren_one]
  exact (String.append_assoc _ _ _).symm

/-- The second progress message ends in the ordinal marker `(2/3)`. -/
theorem progressLabel2_split (key : String) :
    ∃ p, progressLabel2 key = p ++ "(2/3)" := by
  refine ⟨("Still working on " ++ key) ++ " ", ?_⟩
  show ("Still working on " ++ key) ++ " (2/3)" = _
  rw [space_paren_two]
  exact (String.append_assoc _ _ _).symm

/-- The third progress message ends in the ordinal marker `(3/3)`. -/
theorem progressLabel3_split (key : String) :
    ∃ p, progressLabel3 key = p ++ "(3/3)" := by
  refine ⟨("Completed result for " ++ key) ++ " ", ?_⟩
  show ("Completed result for " ++ key) ++ " (3/3)" = _
  rw [space_paren_three]
  exact (String.append_assoc _ _ _).symm

/-- C2: for a streaming call whose consumer never disconnects (every send is
accepted, `3 ≤ accepted`), the call succeeds and the spawned task's whole
trace is exactly three sends in producer order, each followed by the pacing
sleep and nothing else — so the consumer receives exactly the three records
labelled `(1/3)`, `(2/3)`, `(3/3)` in that order (a list delivers element
`k+1` strictly after element `k`), the disconnect path is never taken, and
after the last element the task ends, closing the stream normally. -/
theorem stream_full_delivery (svc : ExamServiceImpl) (req : GetExamResultRequest)
    (accepted : Nat) (h : 3 ≤ accepted) :
    (get_exam_result_stream svc req accepted).1 =
      Except.ok
        [StreamEvent.sent (Except.ok (streamResponse
            (progressLabel1 (combineKey req.student_id req.exam_id)))),
         StreamEvent.slept 1,
         StreamEvent.sent (Except.ok (streamResponse
            (progressLabel2 (combineKey req.student_id req.exam_id)))),
         StreamEvent.slept 1,
         StreamEvent.sent (Except.ok (streamResponse
            (progressLabel3 (combineKey req.student_id req.exam_id)))),
         StreamEvent.slept 1] ∧
    sentItems (producerEvents (combineKey req.student_id req.exam_id) accepted) =
      [Except.ok (streamResponse
          (progressLabel1 (combineKey req.student_id req.exam_id))),
       Except.ok (streamResponse
          (progressLabel2 (combineKey req.student_id req.exam_id))),
       Except.ok (streamResponse
          (progressLabel3 (combineKey req.student_id req.exam_id)))] ∧
    (∃ p, progressLabel1 (combineKey req.student_id req.exam_id) = p ++ "(1/3)") ∧
    (∃ p, progressLabel2 (combineKey req.student_id req.exam_id) = p ++ "(2/3)") ∧
    (∃ p, progressLabel3 (combineKey req.student_id req.exam_id) = p ++ "(3/3)") := by
  refine ⟨?_, ?_, progressLabel1_split _, progressLabel2_split _, progressLabel3_split _⟩
  · show Except.ok (producerEvents (combineKey req.student_id req.exam_id) accepted) = _
    rw [producerEvents_of_three_le _ _ h]
  · rw [producerEvents_of_three_le _ _ h]
    rfl

/-- C2 witness: the concrete scenario `GetExamResultStream("456","physics101")`
with a consumer that accepts four sends. -/
theorem stream_full_delivery_witness :
    3 ≤ 4 ∧
    ((get_exam_result_stream ExamServiceImpl.new
        { student_id := "456", exam_id := "physics101" } 4).1 =
      Except.ok
        [StreamEvent.sent (Except.ok (streamResponse
            (progressLabel1 (combineKey "456" "physics101")))),
         StreamEvent.slept 1,
         StreamEvent.sent (Except.ok (streamResponse
            (progressLabel2 (combineKey "456" "physics101")))),
         StreamEvent.slept 1,
         StreamEvent.sent (Except.ok (streamResponse
            (progressLabel3 (combineKey "456" "physics101")))),
         StreamEvent.slept 1] ∧
    sentItems (producerEvents (combineKey "456" "physics101") 4) =
      [Except.ok (streamResponse (progressLabel1 (combineKey "456" "physics101"))),
       Except.ok (streamResponse (progressLabel2 (combineKey "456" "physics101"))),
       Except.ok (streamResponse (progressLabel3 (combineKey "456" "physics101")))] ∧
    (∃ p, progressLabel1 (combineKey "456" "physics101") = p ++ "(1/3)") ∧
    (∃ p, progressLabel2 (combineKey "456" "physics101") = p ++ "(2/3)") ∧
    (∃ p, progressLabel3 (combineKey "456" "physics101") = p ++ "(3/3)")) :=
  ⟨by decide,
   stream_full_delivery ExamServiceImpl.new
     { student_id := "456", exam_id := "physics101" } 4 (by decide)⟩

/-- C5: the streaming handler never reads the Record Store: its result is
identical for any two service states (in particular, whether or not the
combined key is seeded), it is always the synthetic progress trace for the
combined key, and no item it ever puts on the stream is an error status, so
the streaming path never yields `NotFound`. -/
theorem stream_ignores_store (svc1 svc2 : ExamServiceImpl)
    (req : GetExamResultRequest) (accepted : Nat) :
    (get_exam_result_stream svc1 req accepted).1 =
      (get_exam_result_stream svc2 req accepted).1 ∧
    (get_exam_result_stream svc1 req accepted).1 =
      Except.ok (producerEvents (combineKey req.student_id req.exam_id) accepted) ∧
    (sentItems (producerEvents (combineKey req.student_id req.exam_id) accepted)).all
      isOkItem = true :=
  ⟨rfl, rfl, sentItems_all_ok _ _⟩

/-- C10: the streaming call itself never fails: for every input it returns a
successful response carrying the stream (and an unchanged service state), and
every element put on the stream is an `Ok` record — no error status at call
time, none in-stream. -/
theorem stream_call_never_fails (svc : ExamServiceImpl)
    (req : GetExamResultRequest) (accepted : Nat) :
    ∃ evs, get_exam_result_stream svc req accepted = (Except.ok evs, svc) ∧
      (sentItems evs).all isOkItem = true :=
  ⟨producerEvents (combineKey req.student_id req.exam_id) accepted, rfl,
   sentItems_all_ok _ _⟩

/-- C8: pacing — in every trace the spawned task can produce, every
successfully sent element is immediately followed by the fixed one-second
pacing sleep before anything further is produced, and every sleep in the
trace lasts exactly the one-second pacing interval. -/
theorem stream_paced (svc : ExamServiceImpl) (req : GetExamResultRequest)
    (accepted : Nat) :
    ∃ evs, (get_exam_result_stream svc req accepted).1 = Except.ok evs ∧
      sleepAfterEachSend evs = true ∧ allSleepsOneSecond evs = true :=
  ⟨producerEvents (combineKey req.student_id req.exam_id) accepted, rfl,
   sleepAfterEachSend_producerLoop _ _ _, allSleepsOneSecond_producerLoop _ _ _⟩

/-- A record taken off the stream is always the synthetic record for one of
the three progress messages of the call's composite key. -/
theorem mem_sentResponses_producerEvents (key : String) (a : Nat)
    (r : GetExamResultResponse)
    (hr : r ∈ sentResponses (producerEvents key a)) :
    ∃ m ∈ simulated_results key, r = streamResponse m := by
  rw [sentResponses, List.mem_filterMap] at hr
  obtain ⟨x, hx, hfx⟩ := hr
  obtain ⟨m, hm, rfl⟩ := mem_sentItems_producerLoop a (simulated_results key) 0 x hx
  refine ⟨m, hm, ?_⟩
  simpa using hfx.symm

/-- C9: every record delivered on any stream is the fixed synthetic record —
student_name "Streamed", subject "Simulation", 90 of 100 marks — except for
the grade field, which carries one of the three ordinal progress labels built
from the combined lookup key. -/
theorem stream_elements_fixed_except_grade (svc : ExamServiceImpl)
    (req : GetExamResultRequest) (accepted : Nat) :
    ∃ evs, (get_exam_result_stream svc req accepted).1 = Except.ok evs ∧
      (sentResponses evs).all
        (fun r =>
          r.student_name == "Streamed" && r.subject == "Simulation" &&
          r.marks_obtained == 90 && r.total_marks == 100 &&
          (simulated_results (combineKey req.student_id req.exam_id)).contains
            r.grade) = true := by
  refine ⟨producerEvents (combineKey req.student_id req.exam_id) accepted, rfl, ?_⟩
  rw [List.all_eq_true]
  intro r hr
  obtain ⟨m, hm, rfl⟩ := mem_sentResponses_producerEvents _ _ r hr
  simp [streamResponse, List.contains, List.elem_eq_mem, hm]

/-- C3: the scenario "the consumer stops reading and disconnects after
receiving k < 3 elements" is modelled by the channel accepting at most `k + 1`
sends before the receiver is dropped (the k received elements plus at most one
element sitting in the bounded buffer when the drop happens).  Then the
producer puts at most `k + 1` elements on the channel in total, none of them
an error, and whenever a send actually failed (`accepted < 3`) the task's
entire trace is the accepted sends followed by the single disconnect log line
and nothing else: no element is generated after the failed delivery attempt
and the task terminates, dropping its end of the channel. -/
theorem stream_disconnect_stops (svc : ExamServiceImpl)
    (req : GetExamResultRequest) (k accepted : Nat)
    (hk : k < 3) (ha : accepted ≤ k + 1) :
    ∃ evs, (get_exam_result_stream svc req accepted).1 = Except.ok evs ∧
      (sentItems evs).length ≤ k + 1 ∧
      (sentItems evs).all isOkItem = true ∧
      (accepted < 3 →
        ∃ pre, evs = pre ++ [StreamEvent.disconnectLogged] ∧
          (sentItems pre).length = accepted) := by
  refine ⟨producerEvents (combineKey req.student_id req.exam_id) accepted, rfl,
    ?_, sentItems_all_ok _ _, ?_⟩
  · have hl := sentItems_producerLoop_length accepted
      (simulated_results (combineKey req.student_id req.exam_id)) 0
    have h3 : (simulated_results (combineKey req.student_id req.exam_id)).length = 3 :=
      rfl
    rw [producerEvents, hl, h3]
    omega
  · intro hacc
    have h3 : (simulated_results (combineKey req.student_id req.exam_id)).length = 3 :=
      rfl
    obtain ⟨pre, hpre, hlen⟩ :=
      producerLoop_disconnect accepted
        (simulated_results (combineKey req.student_id req.exam_id)) 0
        (Nat.zero_le _) (by rw [h3]; omega)
    refine ⟨pre, ?_, by omega⟩
    rw [producerEvents, hpre]

/-- C3 witness: the consumer receives one element and disconnects while the
second is in the buffer (`k = 1`, `accepted = 2`). -/
theorem stream_disconnect_stops_witness :
    1 < 3 ∧ 2 ≤ 1 + 1 ∧
    (∃ evs, (get_exam_result_stream ExamServiceImpl.new
        { student_id := "456", exam_id := "physics101" } 2).1 = Except.ok evs ∧
      (sentItems evs).length ≤ 1 + 1 ∧
      (sentItems evs).all isOkItem = true ∧
      (2 < 3 →
        ∃ pre, evs = pre ++ [StreamEvent.disconnectLogged] ∧
          (sentItems pre).length = 2)) :=
  ⟨by decide, by decide,
   stream_disconnect_stops ExamServiceImpl.new
     { student_id := "456", exam_id := "physics101" } 1 2 (by decide) (by decide)⟩

/-- The unary handler never changes the service state. -/
theorem get_exam_result_state (svc : ExamServiceImpl) (req : GetExamResultRequest) :
    (get_exam_result svc req).2 = svc := by
  cases hl : storeLookup svc.exam_data (combineKey req.student_id req.exam_id) <;>
    simp [get_exam_result, hl]

/-- Any sequence of calls leaves the service state untouched. -/
theorem runCalls_state (calls : List Call) :
    ∀ svc : ExamServiceImpl, (runCalls svc calls).2 = svc := by
  induction calls with
  | nil => intro svc; rfl
  | cons c cs ih =>
    intro svc
    cases c with
    | unary req =>
      simp only [runCalls, runCall]
      rw [ih, get_exam_result_state]
    | streaming req a =>
      simp only [runCalls, runCall]
      rw [ih]
      rfl

/-- C6: the Record Store is never mutated after initialization — any number
and interleaving of unary and streaming calls, run against any service state,
returns that state unchanged; in particular, starting from the seeded service
the key-record mapping after any call sequence is exactly the seeded mapping
(so the unary lookup is pure and side-effect-free on the store). -/
theorem store_never_mutated (svc : ExamServiceImpl) (calls : List Call) :
    (runCalls svc calls).2 = svc ∧
    (runCalls ExamServiceImpl.new calls).2.exam_data =
      ExamServiceImpl.new.exam_data := by
  refine ⟨runCalls_state calls svc, ?_⟩
  rw [runCalls_state calls ExamServiceImpl.new]

/-- C4 fails on the code: the composite key is plain `"_"`-concatenation, so
the distinct input pairs ("a_b", "c") and ("a", "b_c") collide on the same
lookup key "a_b_c". -/
theorem combineKey_collision :
    combineKey "a_b" "c" = "a_b_c" ∧
    combineKey "a" "b_c" = "a_b_c" ∧
    (("a_b", "c") : String × String) ≠ (("a", "b_c") : String × String) := by
  refine ⟨by decide, by decide, by decide⟩

/-- C1: the unary call is an exact store lookup — whenever the combined key is
bound in the seeded store the call returns exactly that record, whenever it is
unbound the call returns a `NotFound` status whose message contains the
combined key, and no other outcome exists (the lookup is either `some` or
`none`).  The two concrete scenarios: ("123","math101") returns the John Doe
record exactly, ("999","math101") fails with `NotFound` mentioning
"999_math101". -/
theorem unary_lookup_exact (s e : String) :
    (∀ r, storeLookup ExamServiceImpl.new.exam_data (combineKey s e) = some r →
      (get_exam_result ExamServiceImpl.new { student_id := s, exam_id := e }).1 =
        Except.ok r) ∧
    (storeLookup ExamServiceImpl.new.exam_data (combineKey s e) = none →
      (get_exam_result ExamServiceImpl.new { student_id := s, exam_id := e }).1 =
        Except.error
          (Status.not_found ("No result found for key: " ++ combineKey s e)) ∧
      ∃ p, "No result found for key: " ++ combineKey s e = p ++ combineKey s e) ∧
    (get_exam_result ExamServiceImpl.new
        { student_id := "123", exam_id := "math101" }).1 =
      Except.ok { student_name := "John Doe", subject := "Math 101",
                  marks_obtained := 95, total_marks := 100, grade := "A+" } ∧
    (get_exam_result ExamServiceImpl.new
        { student_id := "999", exam_id := "math101" }).1 =
      Except.error (Status.not_found "No result found for key: 999_math101") ∧
    ∃ p, ("No result found for key: 999_math101" : String) = p ++ "999_math101" := by
  refine ⟨?_, ?_, by decide, by decide, ⟨"No result found for key: ", by decide⟩⟩
  · intro r hr
    simp [get_exam_result, hr]
  · intro hr
    exact ⟨by simp [get_exam_result, hr], ⟨"No result found for key: ", rfl⟩⟩

/-- C1 witness: the seeded key "123_math101" taken through the hit branch. -/
theorem unary_lookup_exact_witness :
    storeLookup ExamServiceImpl.new.exam_data (combineKey "123" "math101") =
      some { student_name := "John Doe", subject := "Math 101",
             marks_obtained := 95, total_marks := 100, grade := "A+" } ∧
    (get_exam_result ExamServiceImpl.new
        { student_id := "123", exam_id := "math101" }).1 =
      Except.ok { student_name := "John Doe", subject := "Math 101",
                  marks_obtained := 95, total_marks := 100, grade := "A+" } :=
  ⟨by decide, (unary_lookup_exact "123" "math101").1 _ (by decide)⟩

/-- A key built from an empty student id or an empty exam id is never one of
the two seeded keys: with an empty student id it starts with the underscore
separator while both seeded keys start with a digit, and with an empty exam id
it ends with the separator while both seeded keys end with a digit. -/
theorem empty_key_not_seeded (s e : String) (h : s = "" ∨ e = "") :
    storeLookup ExamServiceImpl.new.exam_data (combineKey s e) = none := by
  have h1 : ("123_math101" : String) ≠ combineKey s e := by
    rcases h with rfl | rfl
    · intro hk
      have hd := congrArg String.data hk
      simp [combineKey, String.data_append] at hd
    · intro hk
      have hd := congrArg String.data hk
      simp [combineKey, String.data_append] at hd
      have h2 := congrArg List.getLast? hd.symm
      rw [List.getLast?_concat] at h2
      exact absurd h2 (by decide)
  have h2 : ("456_phy101" : String) ≠ combineKey s e := by
    rcases h with rfl | rfl
    · intro hk
      have hd := congrArg String.data hk
      simp [combineKey, String.data_append] at hd
    · intro hk
      have hd := congrArg String.data hk
      simp [combineKey, String.data_append] at hd
      have h2 := congrArg List.getLast? hd.symm
      rw [List.getLast?_concat] at h2
      exact absurd h2 (by decide)
  simp [ExamServiceImpl.new, storeLookup, h1, h2]

/-- C7: empty input strings raise no separate validation error — they are
combined into an ordinary lookup key exactly like any other inputs, and with
the reference seed data (whose keys neither start nor end with the separator)
the lookup misses, so the call returns the ordinary `NotFound` outcome
carrying that key. -/
theorem empty_inputs_ordinary_lookup (s e : String) (h : s = "" ∨ e = "") :
    (get_exam_result ExamServiceImpl.new { student_id := s, exam_id := e }).1 =
      Except.error
        (Status.not_found ("No result found for key: " ++ combineKey s e)) := by
  have hn := empty_key_not_seeded s e h
  simp [get_exam_result, hn]

/-- C7 witness: an empty student id with a normal exam id. -/
theorem empty_inputs_ordinary_lookup_witness :
    (("" : String) = "" ∨ ("math101" : String) = "") ∧
    (get_exam_result ExamServiceImpl.new
        { student_id := "", exam_id := "math101" }).1 =
      Except.error
        (Status.not_found ("No result found for key: " ++ combineKey "" "math101")) :=
  ⟨Or.inl rfl, empty_inputs_ordinary_lookup "" "math101" (Or.inl rfl)⟩
